import Mathlib

/-!
Verification development for the `cpr` repository (Go): a shallow embedding of
the commit analyzer (`internal/commit/analyzer.go`) and of the pull-request
template filler (`internal/github/client.go`, `ApplyTemplate`), together with
theorems settling the specification claims about them.

Strings are modelled as Lean `String` / `List Char`; every Go string-library
and regexp operation used by the source is embedded as an executable,
structurally recursive Lean function. Case folding models the ASCII fragment
of Go's `strings.ToLower` / `(?i)` (all patterns in the source are ASCII).
-/

namespace Cpr

/-- RE2 character class `\s` = `[\t\n\f\r ]`, as used by Go regexps. -/
def isGoSpace (c : Char) : Bool :=
  c = ' ' || c = '\t' || c = '\n' || c = '\r' || c = '\x0c'

/-- RE2 character class `\w` = `[0-9A-Za-z_]`. -/
def isWordChar (c : Char) : Bool :=
  c.isAlphanum || c = '_'

/-- ASCII lowering of a character list (models `strings.ToLower` / `(?i)`
on the ASCII patterns the source uses). -/
def lowerL (l : List Char) : List Char :=
  l.map Char.toLower

/-- Index of the first occurrence of `pat` in `s` (models `strings.Index`,
with `none` for Go's `-1`). -/
def indexOfFrom (pat : List Char) : List Char → Option Nat
  | [] => if pat.isPrefixOf [] then some 0 else none
  | c :: rest =>
    if pat.isPrefixOf (c :: rest) then some 0
    else (indexOfFrom pat rest).map (· + 1)

/-- Substring test on a character list (models `strings.Contains` and
one-literal regexp search). -/
def containsL (pat : String) (l : List Char) : Bool :=
  (indexOfFrom pat.toList l).isSome

/-- Substring test on strings, used to state claims about templates. -/
def containsSub (pat s : String) : Bool :=
  (indexOfFrom pat.toList s.toList).isSome

/-- Helper for `\s*` between two literals: does `l` start with zero or more
Go whitespace characters followed by `b`? -/
def wsThenPrefix (b : List Char) : List Char → Bool
  | [] => b.isPrefixOf []
  | c :: rest => b.isPrefixOf (c :: rest) || (isGoSpace c && wsThenPrefix b rest)

/-- Matcher for the source's regexps of shape `a\s*b` (two literals separated
by optional whitespace), searched anywhere in the text. -/
def matchTwoPart (a b : String) (l : List Char) : Bool :=
  l.tails.any fun t =>
    a.toList.isPrefixOf t && wsThenPrefix b.toList (t.drop a.toList.length)

/-- Split a character list on a separator character (models
`strings.Split(s, sep)` for a one-character separator). -/
def splitOnChar (sep : Char) : List Char → List (List Char)
  | [] => [[]]
  | c :: rest =>
    if c = sep then [] :: splitOnChar sep rest
    else
      match splitOnChar sep rest with
      | [] => [[c]]
      | seg :: segs => (c :: seg) :: segs

/-! ## Commit types (`analyzer.go` lines 10-23) -/

/-- Go's `type CommitType string`. -/
abbrev CommitType := String

def TypeFeat : CommitType := "feat"
def TypeFix : CommitType := "fix"
def TypeDocs : CommitType := "docs"
def TypeStyle : CommitType := "style"
def TypeRefactor : CommitType := "refactor"
def TypePerf : CommitType := "perf"
def TypeTest : CommitType := "test"
def TypeBuild : CommitType := "build"
def TypeCI : CommitType := "ci"
def TypeChore : CommitType := "chore"

/-! ## File classifiers (`analyzer.go` lines 68-93, 253-271) -/

/-- `testFilePattern = (?i)(_test\.go|\.test\.|spec\.|test/)` applied to one
file path. -/
def isTestFile (f : String) : Bool :=
  let l := lowerL f.toList
  containsL "_test.go" l || containsL ".test." l || containsL "spec." l ||
    containsL "test/" l

/-- `Analyzer.hasNonTestChanges` (lines 263-271): some changed file does not
match the test-file pattern. -/
def hasNonTestChanges (files : List String) : Bool :=
  files.any fun f => !isTestFile f

/-- The test guard of `detectCommitType` (lines 72-81): some file matches the
test pattern and no file fails it. -/
def testGuard (files : List String) : Bool :=
  (files.any fun f => isTestFile f) && !hasNonTestChanges files

/-- `hasFilePattern((?i)(readme|\.md$|docs/))` (line 83). -/
def isDocFile (f : String) : Bool :=
  let l := lowerL f.toList
  containsL "readme" l || ".md".toList.isSuffixOf l || containsL "docs/" l

def docGuard (files : List String) : Bool :=
  files.any fun f => isDocFile f

/-- `hasFilePattern((?i)(makefile|dockerfile|\.yml$|\.yaml$|go\.mod|go\.sum|package\.json))`
(line 87). -/
def isBuildFile (f : String) : Bool :=
  let l := lowerL f.toList
  containsL "makefile" l || containsL "dockerfile" l ||
    ".yml".toList.isSuffixOf l || ".yaml".toList.isSuffixOf l ||
    containsL "go.mod" l || containsL "go.sum" l || containsL "package.json" l

def buildGuard (files : List String) : Bool :=
  files.any fun f => isBuildFile f

/-- `hasFilePattern((?i)(\.github/|\.circleci/|\.travis|jenkins))` (line 91). -/
def isCIFile (f : String) : Bool :=
  let l := lowerL f.toList
  containsL ".github/" l || containsL ".circleci/" l || containsL ".travis" l ||
    containsL "jenkins" l

def ciGuard (files : List String) : Bool :=
  files.any fun f => isCIFile f

/-! ## Diff-content classifiers (`analyzer.go` lines 95-143) -/

/-- The eight `bugPatterns` searched over the lowercased diff (lines 95-109). -/
def bugMatch (l : List Char) : Bool :=
  matchTwoPart "fix" "(" l || matchTwoPart "bug" "fix" l ||
    matchTwoPart "error" "handling" l || matchTwoPart "nil" "pointer" l ||
    containsL "panic" l || containsL "segfault" l || containsL "crash" l ||
    containsL "exception" l

def fixGuard (diff : String) : Bool :=
  bugMatch (lowerL diff.toList)

/-- The five `perfPatterns` (lines 111-122). -/
def perfMatch (l : List Char) : Bool :=
  containsL "performance" l || containsL "optimize" l ||
    matchTwoPart "speed" "up" l || matchTwoPart "reduce" "memory" l ||
    containsL "cache" l

def perfGuard (diff : String) : Bool :=
  perfMatch (lowerL diff.toList)

/-- The six `refactorPatterns` (lines 124-136). -/
def refactorMatch (l : List Char) : Bool :=
  containsL "refactor" l || containsL "rename" l || matchTwoPart "move" "to" l ||
    containsL "extract" l || containsL "simplify" l || matchTwoPart "clean" "up" l

def refactorGuard (diff : String) : Bool :=
  refactorMatch (lowerL diff.toList)

/-- The feat-fallback signal (lines 138-141): the lowercased diff contains
`+func`, `+type`, `+struct` or `+interface`. -/
def featSignal (diff : String) : Bool :=
  let l := lowerL diff.toList
  containsL "+func" l || containsL "+type" l || containsL "+struct" l ||
    containsL "+interface" l

/-! ## Type resolver (`Analyzer.detectCommitType`, lines 68-144) -/

/-- The source's guard chain, transcribed if-for-if. -/
def detectCommitType (diff : String) (files : List String) : CommitType :=
  if testGuard files then TypeTest
  else if docGuard files then TypeDocs
  else if buildGuard files then TypeBuild
  else if ciGuard files then TypeCI
  else if fixGuard diff then TypeFix
  else if perfGuard diff then TypePerf
  else if refactorGuard diff then TypeRefactor
  else if featSignal diff then TypeFeat
  else TypeFeat

/-! ## Scope detection (`Analyzer.detectScope`, lines 146-181)

`detectScope` uses Go's `path/filepath.Dir`, which on Unix is
`Clean(path up to and including the last separator)`; both are embedded
below segment-wise. -/

/-- Join cleaned path segments with `/`. -/
def intercalateSlash : List (List Char) → List Char
  | [] => []
  | [s] => s
  | s :: rest => s ++ '/' :: intercalateSlash rest

/-- The element loop of Go `filepath.Clean` (Unix): skip empty and `.`
segments, resolve `..` against the accumulated output. `acc` is the output
stack, most recent segment first. -/
def cleanRev (rooted : Bool) (acc : List (List Char)) :
    List (List Char) → List (List Char)
  | [] => acc.reverse
  | seg :: rest =>
    if seg = [] then cleanRev rooted acc rest
    else if seg = ['.'] then cleanRev rooted acc rest
    else if seg = ['.', '.'] then
      match acc with
      | [] =>
        if rooted then cleanRev rooted [] rest
        else cleanRev rooted [['.', '.']] rest
      | top :: accT =>
        if top = ['.', '.'] then cleanRev rooted (['.', '.'] :: acc) rest
        else cleanRev rooted accT rest
    else cleanRev rooted (seg :: acc) rest

/-- Go `filepath.Clean` on Unix, over a character list. -/
def goClean (path : List Char) : List Char :=
  if path = [] then ['.']
  else
    let rooted := path.head? = some '/'
    let out := cleanRev rooted [] (splitOnChar '/' path)
    if out = [] then (if rooted then ['/'] else ['.'])
    else (if rooted then ['/'] else []) ++ intercalateSlash out

/-- Go `filepath.Dir` on Unix: `Clean` of the prefix up to and including the
last path separator (the empty prefix cleans to `.`). -/
def goDir (path : List Char) : List Char :=
  goClean ((path.reverse.dropWhile fun c => c ≠ '/').reverse)

/-- The marker scan of `detectScope` (lines 156-164): find the first path
segment equal to `internal`, `pkg` or `cmd` and return the following segment,
if any; the loop breaks at the first marker either way. -/
def markerScope : List (List Char) → Option (List Char)
  | [] => none
  | p :: rest =>
    if p = "internal".toList || p = "pkg".toList || p = "cmd".toList then
      match rest with
      | next :: _ => some next
      | [] => none
    else markerScope rest

/-- The scope-candidate contributions of one file in the body of the
`detectScope` loop: the post-marker segment (if any), then the fixed token
`cli` when the file starts with `cmd/` (lines 152-169). -/
def scopeCandidates (file : String) : List String :=
  (match markerScope (splitOnChar '/' (goDir file.toList)) with
    | some s => [String.mk s]
    | none => []) ++
  (if "cmd/".toList.isPrefixOf file.toList then ["cli"] else [])

/-- Increment the count of `k` in an association list kept in first-insertion
order (the deterministic content of the Go map `commonPrefixes`). -/
def bump (m : List (String × Nat)) (k : String) : List (String × Nat) :=
  match m with
  | [] => [(k, 1)]
  | (k', v) :: rest => if k' = k then (k', v + 1) :: rest else (k', v) :: bump rest k

/-- The counts accumulated in `commonPrefixes` over all changed files, as an
association list in first-insertion order. -/
def scopeTally (files : List String) : List (String × Nat) :=
  files.foldl (fun m f => (scopeCandidates f).foldl bump m) []

/-- The max-selection loop of `detectScope` (lines 171-178), evaluated along a
given iteration order of the map entries. Go map iteration order is
unspecified (randomized at runtime), so the order is an explicit parameter;
a run of the source corresponds to some permutation of `scopeTally files`. -/
def detectScopeWith (files : List String) (order : List (String × Nat)) : String :=
  if files.isEmpty then ""
  else (order.foldl (fun (acc : String × Nat) p => if p.2 > acc.2 then p else acc)
    ("", 0)).1

/-! ## Descriptions and composition (`analyzer.go` lines 37-66, 183-251) -/

/-- Match one diff line against `^\+func\s+(\w+)` or `^\+type\s+(\w+)`
(with `kw` the keyword characters): the line must start with `+` directly
followed by the keyword, then one or more `\s`, then the captured maximal
nonempty run of `\w`. -/
def matchDeclLine (kw : List Char) (line : List Char) : Option (List Char) :=
  if ('+' :: kw).isPrefixOf line then
    let rest := line.drop (kw.length + 1)
    match rest with
    | [] => none
    | c :: _ =>
      if isGoSpace c then
        let id := (rest.dropWhile isGoSpace).takeWhile isWordChar
        if id = [] then none else some id
      else none
  else none

/-- `Analyzer.analyzePrimaryChanges` (lines 213-233): scan the diff lines for
added `func`/`type` declarations, phrase each, and cap the list at 3. -/
def analyzePrimaryChanges (diff : String) : List String :=
  let changes := (splitOnChar '\n' diff.toList).filterMap fun line =>
    match matchDeclLine "func".toList line with
    | some id => some ("add " ++ String.mk id ++ " function")
    | none =>
      match matchDeclLine "type".toList line with
      | some id => some ("add " ++ String.mk id ++ " type")
      | none => none
  if changes.length > 3 then changes.take 3 else changes

/-- `hasFilePattern(go\.mod)` (line 238): the escaped dot makes this a search
for the literal substring `go.mod`, case-sensitive (no `(?i)` flag here). -/
def goModGuard (files : List String) : Bool :=
  files.any fun f => containsL "go.mod" f.toList

/-- `hasFilePattern((?i)test)` (line 242). -/
def testNameGuard (files : List String) : Bool :=
  files.any fun f => containsL "test" (lowerL f.toList)

/-- `Analyzer.analyzeChanges` (lines 235-251). -/
def analyzeChanges (diff : String) (files : List String) : List String :=
  let c1 := analyzePrimaryChanges diff
  let c2 := if goModGuard files then c1 ++ ["Update dependencies"] else c1
  let c3 := if testNameGuard files then c2 ++ ["Add or update tests"] else c2
  if c3 = [] then ["Various improvements and updates"] else c3

/-- The `switch commitType` default phrases of `generateDescription`
(lines 191-210). -/
def defaultDescription (ct : CommitType) : String :=
  if ct = TypeFeat then "add new functionality"
  else if ct = TypeFix then "resolve issues"
  else if ct = TypeDocs then "update documentation"
  else if ct = TypeTest then "add tests"
  else if ct = TypeBuild then "update build configuration"
  else if ct = TypeCI then "update CI configuration"
  else if ct = TypeRefactor then "improve code structure"
  else if ct = TypePerf then "improve performance"
  else "update codebase"

/-- `Analyzer.generateDescription` (lines 183-211): first primary change if
any, else the per-type default phrase. -/
def generateDescription (diff : String) (files : List String) : String :=
  match analyzePrimaryChanges diff with
  | p :: _ => p
  | [] => defaultDescription (detectCommitType diff files)

/-- `Analyzer.GenerateTitle` (lines 37-46), with the map iteration order of
`detectScope` passed through explicitly. -/
def GenerateTitle (diff : String) (files : List String)
    (order : List (String × Nat)) : String :=
  let commitType := detectCommitType diff files
  let scope := detectScopeWith files order
  let description := generateDescription diff files
  if scope ≠ "" then commitType ++ "(" ++ scope ++ "): " ++ description
  else commitType ++ ": " ++ description

/-- `Analyzer.GenerateSummary` (lines 48-66), modelling the sequential
`strings.Builder` writes as folds over a running string. -/
def GenerateSummary (diff : String) (files : List String) : String :=
  let s1 := (analyzeChanges diff files).foldl
    (fun acc change => acc ++ ("- " ++ change ++ "\n")) "## Summary\n\n"
  if files.length > 0 then
    files.foldl (fun acc file => acc ++ ("- `" ++ file ++ "`\n"))
      (s1 ++ "\n## Changed Files\n\n")
  else s1

/-! ## PR template filling (`internal/github/client.go`, `ApplyTemplate`,
lines 218-277) -/

/-- Fuel-driven core of `strings.ReplaceAll`: replace each non-overlapping
occurrence of `old` left to right. Fuel `s.length` suffices since every step
consumes at least one character. -/
def replaceAllFuel (old new : List Char) : Nat → List Char → List Char
  | _, [] => []
  | 0, s => s
  | fuel + 1, c :: rest =>
    if old.isPrefixOf (c :: rest) && !old.isEmpty then
      new ++ replaceAllFuel old new fuel ((c :: rest).drop old.length)
    else c :: replaceAllFuel old new fuel rest

/-- `strings.ReplaceAll(s, old, new)` for nonempty `old` (all placeholder
tokens in the source are nonempty). -/
def replaceAll (old new s : List Char) : List Char :=
  replaceAllFuel old new s.length s

/-- The twelve placeholder replacements of `ApplyTemplate` (lines 228-241), in
source order: the four title tokens, then the eight summary tokens. -/
def placeholderSubs (title summary : String) : List (String × String) :=
  [("\x7b\x7btitle\x7d\x7d", title), ("\x7b\x7bTITLE\x7d\x7d", title),
   ("[Title]", title), ("[TITLE]", title),
   ("\x7b\x7bdescription\x7d\x7d", summary), ("\x7b\x7bDESCRIPTION\x7d\x7d", summary),
   ("\x7b\x7bsummary\x7d\x7d", summary), ("\x7b\x7bSUMMARY\x7d\x7d", summary),
   ("[Description]", summary), ("[DESCRIPTION]", summary),
   ("[Summary]", summary), ("[SUMMARY]", summary)]

/-- The sequential `strings.ReplaceAll` chain of `ApplyTemplate`. -/
def replacePlaceholders (title summary : String) (l : List Char) : List Char :=
  (placeholderSubs title summary).foldl
    (fun acc p => replaceAll p.1.toList p.2.toList acc) l

/-- The twelve placeholder token strings, in replacement order. -/
def placeholderTokens : List String :=
  (placeholderSubs "" "").map Prod.fst

/-- The eight section-heading strings of `ApplyTemplate` (lines 245-254), in
source order. -/
def sectionHeadingStrings : List String :=
  ["## Summary", "## Description", "## What", "## Changes",
   "### Summary", "### Description", "### What", "### Changes"]

def sectionPatterns : List (List Char) :=
  sectionHeadingStrings.map String.toList

/-- The outer pattern loop of `ApplyTemplate` (lines 256-258): the first
pattern in list order that occurs anywhere in `r`, with its index and length. -/
def findPattern (r : List Char) : List (List Char) → Option (Nat × Nat)
  | [] => none
  | p :: ps =>
    match indexOfFrom p r with
    | some idx => some (idx, p.length)
    | none => findPattern r ps

/-- The inner terminator loop of `ApplyTemplate` (lines 260-266): try the
markers in order and `break` on the first one found in the tail, defaulting to
the whole length. -/
def endIdxLoop (tailPart : List Char) (base dflt : Nat) : List (List Char) → Nat
  | [] => dflt
  | p :: ps =>
    match indexOfFrom p tailPart with
    | some next => base + next
    | none => endIdxLoop tailPart base dflt ps

/-- The section-filling step of `ApplyTemplate` (lines 256-274): splice
`"\n\n" ++ summary ++ "\n"` over the region between the first matching heading
and the computed terminator. -/
def fillSection (summary r : List Char) : List Char :=
  match findPattern r sectionPatterns with
  | none => r
  | some (idx, plen) =>
    let base := idx + plen
    let endIdx := endIdxLoop (r.drop base) base r.length
      ["##".toList, "###".toList, "---".toList]
    r.take base ++ "\n\n".toList ++ summary ++ '\n' :: r.drop endIdx

/-- `ApplyTemplate(template, title, summary)` (lines 218-277). -/
def ApplyTemplate (template title summary : String) : String :=
  if template = "" then summary
  else String.mk
    (fillSection summary.toList (replacePlaceholders title summary template.toList))

/-! ## Definitions following the specification's words

These restate the spec's descriptions of the resolver, title, summary and
template filling, to be compared with the definitions embedded from the
source. -/

/-- Spec 4.4: the resolver as an explicit ordered chain of (guard, type)
pairs — test, docs, build, ci, fix, perf, refactor, feat-fallback — with
`feat` as the universal default. -/
def guardChain : List ((String → List String → Bool) × CommitType) :=
  [(fun _ fs => testGuard fs, TypeTest),
   (fun _ fs => docGuard fs, TypeDocs),
   (fun _ fs => buildGuard fs, TypeBuild),
   (fun _ fs => ciGuard fs, TypeCI),
   (fun d _ => fixGuard d, TypeFix),
   (fun d _ => perfGuard d, TypePerf),
   (fun d _ => refactorGuard d, TypeRefactor),
   (fun d _ => featSignal d, TypeFeat)]

/-- First-matching-guard evaluation: the first guard whose condition holds
determines the result, and `feat` is returned when no guard matches. -/
def resolveGuards (d : String) (fs : List String) :
    List ((String → List String → Bool) × CommitType) → CommitType
  | [] => TypeFeat
  | g :: gs => if g.1 d fs then g.2 else resolveGuards d fs gs

/-- Spec 4.5: title composition — `type(scope): description` when the scope
is non-empty, else `type: description`, the description being the first
structural-addition phrase verbatim if one exists and the fixed per-type
default phrase otherwise. -/
def titleSpec (diff : String) (files : List String)
    (order : List (String × Nat)) : String :=
  let ct := detectCommitType diff files
  let descr :=
    match analyzePrimaryChanges diff with
    | p :: _ => p
    | [] => defaultDescription ct
  let scope := detectScopeWith files order
  if scope = "" then ct ++ ": " ++ descr
  else ct ++ "(" ++ scope ++ "): " ++ descr

/-- Concatenation of a list of strings. -/
def concatList : List String → String
  | [] => ""
  | s :: rest => s ++ concatList rest

/-- Spec 4.5 (`GenerateSummary`): a `## Summary` section whose bullet lines
are the structural-addition phrases (capped at 3), plus `Update dependencies`
if a dependency-manifest file changed, plus `Add or update tests` if a changed
path case-insensitively contains `test`, plus the single fallback line when no
line was produced; then a `## Changed Files` section listing every changed
file as an inline-code bullet, present iff the changed-file list is
non-empty. -/
def summarySpec (diff : String) (files : List String) : String :=
  let adds := analyzePrimaryChanges diff
  let deps := if goModGuard files then ["Update dependencies"] else []
  let tests := if testNameGuard files then ["Add or update tests"] else []
  let listed := adds ++ deps ++ tests
  let lines := if listed = [] then ["Various improvements and updates"] else listed
  ("## Summary\n\n" ++ concatList (lines.map fun c => "- " ++ c ++ "\n")) ++
    (if files = [] then ""
     else "\n## Changed Files\n\n" ++
       concatList (files.map fun f => "- \x60" ++ f ++ "\x60\n"))

/-- Earliest occurrence over several patterns, for the claim's reading of the
terminator ("the next `##`, `###`, or `---` marker"). -/
def earliestIndex (pats : List (List Char)) (s : List Char) : Option Nat :=
  pats.foldl
    (fun acc p =>
      match indexOfFrom p s, acc with
      | some i, some j => some (min i j)
      | some i, none => some i
      | none, a => a)
    none

/-- Claim C8's terminator: the earliest next `##`, `###` or `---` marker, or
end of text. -/
def specEndIdx (tailPart : List Char) (base dflt : Nat) : Nat :=
  match earliestIndex ["##".toList, "###".toList, "---".toList] tailPart with
  | some i => base + i
  | none => dflt

def fillSectionSpec (summary r : List Char) : List Char :=
  match findPattern r sectionPatterns with
  | none => r
  | some (idx, plen) =>
    let base := idx + plen
    let endIdx := specEndIdx (r.drop base) base r.length
    r.take base ++ "\n\n".toList ++ summary ++ '\n' :: r.drop endIdx

/-- Template application exactly as claim C8 states it: replace the twelve
placeholders, then fill the first matching section, the filled region
terminated at the next `##`, `###` or `---` marker or end of text — with no
special case for an empty template. -/
def applyTemplateSpec (template title summary : String) : String :=
  String.mk
    (fillSectionSpec summary.toList (replacePlaceholders title summary template.toList))

/-- The amended terminator: the next `##` occurrence (which also covers every
`###`) when one exists, otherwise the next `---`, otherwise end of text. -/
def amendedEndIdx (tailPart : List Char) (base dflt : Nat) : Nat :=
  match indexOfFrom "##".toList tailPart with
  | some i => base + i
  | none =>
    match indexOfFrom "---".toList tailPart with
    | some i => base + i
    | none => dflt

def fillSectionAmended (summary r : List Char) : List Char :=
  match findPattern r sectionPatterns with
  | none => r
  | some (idx, plen) =>
    let base := idx + plen
    let endIdx := amendedEndIdx (r.drop base) base r.length
    r.take base ++ "\n\n".toList ++ summary ++ '\n' :: r.drop endIdx

/-- Template application as amended: an empty template yields the summary;
otherwise replace the twelve placeholders and fill the first matching section,
the region terminated at the next `##` if any, else the next `---`, else end
of text. -/
def applyTemplateAmended (template title summary : String) : String :=
  if template = "" then summary
  else String.mk
    (fillSectionAmended summary.toList (replacePlaceholders title summary template.toList))

/-! ## Helper lemmas -/

theorem append_ne_empty_left (a b : String) (h : a ≠ "") : a ++ b ≠ "" := by
  intro hc
  apply h
  apply String.ext
  have hd := congrArg String.data hc
  rw [String.data_append] at hd
  exact (List.append_eq_nil.mp hd).1

theorem length_append_left_le (a b : String) : a.length ≤ (a ++ b).length := by
  rw [String.length_append]
  omega

theorem foldl_affix (pre post : String) :
    ∀ (l : List String) (acc : String),
      l.foldl (fun a c => a ++ (pre ++ c ++ post)) acc =
        acc ++ concatList (l.map fun c => pre ++ c ++ post) := by
  intro l
  induction l with
  | nil => intro acc; simp [concatList, String.append_empty]
  | cons x rest ih =>
    intro acc
    rw [List.foldl_cons, ih, List.map_cons, concatList,
      String.append_assoc acc (pre ++ x ++ post)]

/-- The source resolver always lands on one of its eight literal results. -/
theorem detect_cases (d : String) (fs : List String) :
    detectCommitType d fs = TypeTest ∨ detectCommitType d fs = TypeDocs ∨
      detectCommitType d fs = TypeBuild ∨ detectCommitType d fs = TypeCI ∨
      detectCommitType d fs = TypeFix ∨ detectCommitType d fs = TypePerf ∨
      detectCommitType d fs = TypeRefactor ∨ detectCommitType d fs = TypeFeat := by
  unfold detectCommitType
  repeat' split
  all_goals tauto

theorem indexOfFrom_none_not_prefix {pat s : List Char}
    (h : indexOfFrom pat s = none) : pat.isPrefixOf s = false := by
  cases s with
  | nil =>
    unfold indexOfFrom at h
    by_cases hp : pat.isPrefixOf [] <;> simp [hp] at h ⊢
  | cons c rest =>
    unfold indexOfFrom at h
    by_cases hp : pat.isPrefixOf (c :: rest) <;> simp [hp] at h ⊢

theorem indexOfFrom_none_tail {pat : List Char} {c : Char} {s : List Char}
    (h : indexOfFrom pat (c :: s) = none) : indexOfFrom pat s = none := by
  unfold indexOfFrom at h
  by_cases hp : pat.isPrefixOf (c :: s)
  · simp [hp] at h
  · simp [hp, Option.map_eq_none] at h
    exact h

theorem replaceAllFuel_no_occ (old new : List Char) :
    ∀ (fuel : Nat) (s : List Char), indexOfFrom old s = none →
      replaceAllFuel old new fuel s = s := by
  intro fuel
  induction fuel with
  | zero => intro s _; cases s <;> rfl
  | succ n ih =>
    intro s h
    cases s with
    | nil => rfl
    | cons c rest =>
      have hp := indexOfFrom_none_not_prefix h
      have ht := indexOfFrom_none_tail h
      unfold replaceAllFuel
      rw [hp]
      simp [ih rest ht]

theorem replaceAll_no_occ (old new s : List Char) (h : indexOfFrom old s = none) :
    replaceAll old new s = s :=
  replaceAllFuel_no_occ old new s.length s h

theorem findPattern_none {r : List Char} :
    ∀ {pats : List (List Char)}, (∀ p ∈ pats, indexOfFrom p r = none) →
      findPattern r pats = none := by
  intro pats
  induction pats with
  | nil => intro _; rfl
  | cons p ps ih =>
    intro h
    unfold findPattern
    rw [h p (by simp)]
    exact ih fun q hq => h q (by simp [hq])

theorem isPrefixOf_hhh_hh {s : List Char}
    (h : List.isPrefixOf "###".toList s = true) :
    List.isPrefixOf "##".toList s = true := by
  rw [List.isPrefixOf_iff_prefix] at h ⊢
  exact List.IsPrefix.trans ⟨['#'], rfl⟩ h

theorem indexOfFrom_hh_none_hhh {s : List Char}
    (h : indexOfFrom "##".toList s = none) : indexOfFrom "###".toList s = none := by
  induction s with
  | nil => decide
  | cons c rest ih =>
    have hp : List.isPrefixOf "##".toList (c :: rest) = false :=
      indexOfFrom_none_not_prefix h
    have ht := ih (indexOfFrom_none_tail h)
    have hp3 : List.isPrefixOf "###".toList (c :: rest) = false := by
      cases h3 : List.isPrefixOf "###".toList (c :: rest)
      · rfl
      · rw [isPrefixOf_hhh_hh h3] at hp
        cases hp
    unfold indexOfFrom
    rw [hp3, ht]
    rfl

theorem endIdxLoop_eq_amended (tailPart : List Char) (base dflt : Nat) :
    endIdxLoop tailPart base dflt ["##".toList, "###".toList, "---".toList] =
      amendedEndIdx tailPart base dflt := by
  unfold amendedEndIdx
  cases h1 : indexOfFrom "##".toList tailPart with
  | some i => simp only [endIdxLoop, h1]
  | none =>
    have h2 := indexOfFrom_hh_none_hhh h1
    cases h3 : indexOfFrom "---".toList tailPart with
    | some j => simp only [endIdxLoop, h1, h2, h3]
    | none => simp only [endIdxLoop, h1, h2, h3]

theorem fillSection_eq_amended (summary r : List Char) :
    fillSection summary r = fillSectionAmended summary r := by
  unfold fillSection fillSectionAmended
  cases hf : findPattern r sectionPatterns with
  | none => rfl
  | some p =>
    obtain ⟨idx, plen⟩ := p
    simp only [endIdxLoop_eq_amended]

theorem not_any_not_eq_all (p : String → Bool) (l : List String) :
    (!(l.any fun f => !p f)) = l.all p := by
  induction l with
  | nil => rfl
  | cons x rest ih => simp [List.any_cons, List.all_cons, ih]

/-- The test guard holds exactly when the changed-file list is non-empty and
every changed file matches the test-file pattern. -/
theorem testGuard_eq (fs : List String) :
    testGuard fs = (!fs.isEmpty && fs.all fun f => isTestFile f) := by
  unfold testGuard hasNonTestChanges
  rw [not_any_not_eq_all]
  cases fs with
  | nil => rfl
  | cons f rest =>
    simp only [List.isEmpty_cons, Bool.not_false, Bool.true_and, List.any_cons,
      List.all_cons]
    cases hf : isTestFile f <;> simp

theorem testGuard_iff (fs : List String) :
    testGuard fs = true ↔
      (fs.isEmpty = false ∧ fs.all (fun f => isTestFile f) = true) := by
  rw [testGuard_eq]
  cases he : fs.isEmpty <;> cases ha : fs.all fun f => isTestFile f <;> simp

/-- When the test guard fails, the resolver never returns `test`. -/
theorem detect_eq_test_iff (d : String) (fs : List String) :
    detectCommitType d fs = TypeTest ↔ testGuard fs = true := by
  constructor
  · intro h
    by_cases ht : testGuard fs = true
    · exact ht
    · exfalso
      have ht' : testGuard fs = false := by
        revert ht; cases testGuard fs <;> simp
      revert h
      unfold detectCommitType
      rw [ht']
      simp only [Bool.false_eq_true, if_false]
      repeat' split
      all_goals decide
  · intro ht
    unfold detectCommitType
    rw [ht]
    rfl

theorem append_len_pos {a : String} (b : String) (h : 0 < a.length) :
    0 < (a ++ b).length :=
  lt_of_lt_of_le h (length_append_left_le a b)

theorem mk_toList (s : String) : String.mk s.toList = s := rfl

/-! ## Claim theorems -/

/-- C1: the commit-type resolver is a total function evaluated as the fixed
ordered guard chain test, docs, build, ci, fix, perf, refactor,
feat-fallback, feat-default: it equals first-matching-guard evaluation over
that chain; in particular a doc-file match forces `docs` whenever the test
guard did not fire, whatever the diff contains, and `feat` is returned when
no earlier guard matches. -/
theorem c1_resolver_is_ordered_guard_chain :
    (∀ d fs, detectCommitType d fs = resolveGuards d fs guardChain)
    ∧ (∀ d fs, testGuard fs = false → docGuard fs = true →
        detectCommitType d fs = TypeDocs)
    ∧ (∀ d fs, testGuard fs = false → docGuard fs = false → buildGuard fs = false →
        ciGuard fs = false → fixGuard d = false → perfGuard d = false →
        refactorGuard d = false → detectCommitType d fs = TypeFeat) := by
  refine ⟨fun d fs => ?_, fun d fs h1 h2 => ?_, fun d fs h1 h2 h3 h4 h5 h6 h7 => ?_⟩
  · simp only [guardChain, resolveGuards]
    rfl
  · unfold detectCommitType
    rw [h1, h2]
    rfl
  · unfold detectCommitType
    rw [h1, h2, h3, h4, h5, h6, h7]
    simp

/-- Witness for C1: `docs` despite a bug keyword in the diff, and the `feat`
default on a signal-free input. -/
theorem c1_resolver_witness :
    (testGuard ["README.md"] = false ∧ docGuard ["README.md"] = true ∧
      detectCommitType "panic" ["README.md"] = TypeDocs)
    ∧ (testGuard ["main.c"] = false ∧ docGuard ["main.c"] = false ∧
        buildGuard ["main.c"] = false ∧ ciGuard ["main.c"] = false ∧
        fixGuard "hello" = false ∧ perfGuard "hello" = false ∧
        refactorGuard "hello" = false ∧
        detectCommitType "hello" ["main.c"] = TypeFeat) :=
  ⟨⟨by decide, by decide,
      c1_resolver_is_ordered_guard_chain.2.1 "panic" ["README.md"]
        (by decide) (by decide)⟩,
    ⟨by decide, by decide, by decide, by decide, by decide, by decide, by decide,
      c1_resolver_is_ordered_guard_chain.2.2 "hello" ["main.c"]
        (by decide) (by decide) (by decide) (by decide) (by decide) (by decide)
        (by decide)⟩⟩

/-- C2: the resolver returns `test` iff the changed-file list is non-empty and
every changed file matches the test-file pattern; on an all-test-file input
with a bug keyword the result is `test`, adding one non-test file flips the
result to `fix`, and an empty list never yields `test`. -/
theorem c2_test_iff_all_test_files :
    (∀ d fs, detectCommitType d fs = TypeTest ↔
        (fs.isEmpty = false ∧ fs.all (fun f => isTestFile f) = true))
    ∧ detectCommitType "bug fix" ["a_test.go"] = TypeTest
    ∧ detectCommitType "bug fix" ["a_test.go", "main.go"] = TypeFix
    ∧ (detectCommitType "bug fix" ["a_test.go", "main.go"] == TypeTest) = false
    ∧ (∀ d, (detectCommitType d [] == TypeTest) = false) := by
  refine ⟨fun d fs => (detect_eq_test_iff d fs).trans (testGuard_iff fs),
    by decide, by decide, by decide, fun d => ?_⟩
  have h : detectCommitType d [] ≠ TypeTest := fun hc => by
    have hg := (detect_eq_test_iff d []).mp hc
    exact absurd hg (by decide)
  revert h
  cases hb : detectCommitType d [] == TypeTest
  · intro _; rfl
  · intro h
    exact absurd (eq_of_beq hb) h

/-- Witness for C2: both directions of the iff instantiated concretely. -/
theorem c2_test_iff_witness :
    detectCommitType "whatever" ["pkg/a/x_test.go", "test/util.spec.js"] = TypeTest :=
  (c2_test_iff_all_test_files.1 "whatever"
    ["pkg/a/x_test.go", "test/util.spec.js"]).mpr ⟨by decide, by decide⟩

/-- C9: only eight of the ten declared commit types are ever produced: the
resolver's result is always among test, docs, build, ci, fix, perf, refactor,
feat, and is never `style` or `chore`. -/
theorem c9_style_chore_never_produced :
    ∀ d fs,
      detectCommitType d fs ∈
        [TypeTest, TypeDocs, TypeBuild, TypeCI, TypeFix, TypePerf, TypeRefactor,
          TypeFeat]
      ∧ (detectCommitType d fs == TypeStyle) = false
      ∧ (detectCommitType d fs == TypeChore) = false := by
  intro d fs
  rcases detect_cases d fs with h | h | h | h | h | h | h | h <;> rw [h] <;>
    exact ⟨by decide, by decide, by decide⟩

/-- C5: title composition — `type(scope): description` when the resolved
scope is non-empty, else `type: description`, the description being the first
structural-addition phrase verbatim if one exists and the per-type default
phrase otherwise; the `+func NewFeature() string` diff over `main.go` yields
exactly `feat: add NewFeature function`. -/
theorem c5_title_composition :
    (∀ d fs order, GenerateTitle d fs order = titleSpec d fs order)
    ∧ GenerateTitle "+func NewFeature() string \x7b" ["main.go"]
        (scopeTally ["main.go"]) = "feat: add NewFeature function" := by
  constructor
  · intro d fs order
    unfold GenerateTitle titleSpec generateDescription
    by_cases hs : detectScopeWith fs order = "" <;> simp [hs]
  · decide

/-- C6: summary composition — a `## Summary` section whose bullets are the
structural-addition phrases (diff order, capped at 3), plus the dependency
and test lines when triggered, plus the fallback line when nothing else was
produced, followed by a `## Changed Files` section listing each file as an
inline-code bullet exactly when the file list is non-empty. -/
theorem c6_summary_composition :
    (∀ d fs, GenerateSummary d fs = summarySpec d fs)
    ∧ GenerateSummary "" [] = "## Summary\n\n- Various improvements and updates\n"
    ∧ GenerateSummary "+func A() \x7b\n+func B() \x7b\n+func C2() \x7b\n+func D() \x7b"
        ["go.mod", "x_test.go"] =
      "## Summary\n\n- add A function\n- add B function\n- add C2 function\n- Update dependencies\n- Add or update tests\n\n## Changed Files\n\n- \x60go.mod\x60\n- \x60x_test.go\x60\n" := by
  refine ⟨fun d fs => ?_, by decide, by decide⟩
  unfold GenerateSummary summarySpec analyzeChanges
  dsimp only
  rw [foldl_affix, foldl_affix]
  by_cases hfe : fs = []
  · subst hfe
    simp [List.length_pos, String.append_assoc, String.append_empty,
      (by decide : goModGuard [] = false), (by decide : testNameGuard [] = false)]
  · by_cases hgm : goModGuard fs <;> by_cases htn : testNameGuard fs <;>
      simp [hgm, htn, hfe, List.length_pos, String.append_assoc,
        String.append_empty]

/-- C7: totality — for every input, including the empty diff and the empty
file list, the analyzer produces a non-empty commit type, a non-empty title
and a non-empty summary (there is no error path in the embedded functions). -/
theorem c7_analyzer_totality :
    (∀ d fs order,
      0 < (detectCommitType d fs).length ∧ 0 < (GenerateTitle d fs order).length ∧
        0 < (GenerateSummary d fs).length)
    ∧ detectCommitType "" [] = TypeFeat
    ∧ GenerateTitle "" [] [] = "feat: add new functionality" := by
  refine ⟨fun d fs order => ⟨?_, ?_, ?_⟩, by decide, by decide⟩
  · rcases detect_cases d fs with h | h | h | h | h | h | h | h <;> rw [h] <;> decide
  · have hct : 0 < (detectCommitType d fs).length := by
      rcases detect_cases d fs with h | h | h | h | h | h | h | h <;> rw [h] <;> decide
    unfold GenerateTitle
    dsimp only
    split
    · exact append_len_pos _ (append_len_pos _ (append_len_pos _ (append_len_pos _ hct)))
    · exact append_len_pos _ (append_len_pos _ hct)
  · unfold GenerateSummary
    dsimp only
    rw [foldl_affix, foldl_affix]
    split
    · exact append_len_pos _ (append_len_pos _ (append_len_pos _ (by decide)))
    · exact append_len_pos _ (by decide)

/-- C3: the title is not determined by the `(diff, files)` pair alone when
scope candidates tie: both listed orders are permutations of the tally the
source builds for the two-file input, i.e. legitimate iteration orders of the
Go map `commonPrefixes`, yet they produce different titles — the analyzer is
not deterministic across runs on this input. -/
theorem c3_scope_tie_breaks_determinism :
    ([("auth", 1), ("billing", 1)]).Perm
        (scopeTally ["internal/auth/a.go", "internal/billing/b.go"])
    ∧ ([("billing", 1), ("auth", 1)]).Perm
        (scopeTally ["internal/auth/a.go", "internal/billing/b.go"])
    ∧ GenerateTitle "" ["internal/auth/a.go", "internal/billing/b.go"]
        [("auth", 1), ("billing", 1)] = "feat(auth): add new functionality"
    ∧ GenerateTitle "" ["internal/auth/a.go", "internal/billing/b.go"]
        [("billing", 1), ("auth", 1)] = "feat(billing): add new functionality"
    ∧ (GenerateTitle "" ["internal/auth/a.go", "internal/billing/b.go"]
          [("auth", 1), ("billing", 1)] ==
        GenerateTitle "" ["internal/auth/a.go", "internal/billing/b.go"]
          [("billing", 1), ("auth", 1)]) = false := by
  decide

/-- C4: on the claim's three-file example the tally is auth 2, billing 1 and
the scope is `auth` under either iteration order of the map; but on a tied
tally the result follows the iteration order, and the reversed order — a
legitimate order of the Go map — returns `billing`, not the first-encountered
`auth`. -/
theorem c4_scope_tally_and_tie_break :
    scopeTally ["internal/auth/a.go", "internal/auth/b.go", "internal/billing/c.go"] =
      [("auth", 2), ("billing", 1)]
    ∧ detectScopeWith
        ["internal/auth/a.go", "internal/auth/b.go", "internal/billing/c.go"]
        [("auth", 2), ("billing", 1)] = "auth"
    ∧ detectScopeWith
        ["internal/auth/a.go", "internal/auth/b.go", "internal/billing/c.go"]
        [("billing", 1), ("auth", 2)] = "auth"
    ∧ scopeTally ["internal/auth/a.go", "internal/billing/b.go"] =
        [("auth", 1), ("billing", 1)]
    ∧ ([("billing", 1), ("auth", 1)]).Perm
        (scopeTally ["internal/auth/a.go", "internal/billing/b.go"])
    ∧ detectScopeWith ["internal/auth/a.go", "internal/billing/b.go"]
        [("billing", 1), ("auth", 1)] = "billing"
    ∧ (("billing" : String) == "auth") = false := by
  decide

/-- C8 counterexample: on an empty template the code returns the summary while
the claimed pipeline returns the empty string, and when a `---` marker
precedes the next `##` heading the code terminates the filled region at the
`##` (deleting the `---` line), not at the next marker as claimed. -/
theorem c8_counterexample_terminator :
    ApplyTemplate "" "t" "S" = "S"
    ∧ applyTemplateSpec "" "t" "S" = ""
    ∧ (ApplyTemplate "" "t" "S" == applyTemplateSpec "" "t" "S") = false
    ∧ ApplyTemplate "## Summary\nX\n---\nY\n## Z" "t" "S" =
        "## Summary\n\nS\n## Z"
    ∧ applyTemplateSpec "## Summary\nX\n---\nY\n## Z" "t" "S" =
        "## Summary\n\nS\n---\nY\n## Z"
    ∧ (ApplyTemplate "## Summary\nX\n---\nY\n## Z" "t" "S" ==
        applyTemplateSpec "## Summary\nX\n---\nY\n## Z" "t" "S") = false := by
  decide

/-- C8 as amended: `ApplyTemplate` replaces the twelve placeholder tokens and
fills the first matching section heading, the filled region terminated at the
next `##` occurrence (which subsumes `###`) if one exists, otherwise at the
next `---`, otherwise at end of text; an empty template returns the summary
unchanged. -/
theorem c8_template_fill_as_amended :
    ∀ template title summary,
      ApplyTemplate template title summary =
        applyTemplateAmended template title summary := by
  intro template title summary
  unfold ApplyTemplate applyTemplateAmended
  by_cases ht : template = ""
  · rw [if_pos ht, if_pos ht]
  · rw [if_neg ht, if_neg ht, fillSection_eq_amended]

theorem foldl_replaceAll_no_occ (subs : List (String × String)) (s : String) :
    (∀ p ∈ subs, indexOfFrom p.1.toList s.toList = none) →
      subs.foldl (fun acc p => replaceAll p.1.toList p.2.toList acc) s.toList =
        s.toList := by
  induction subs with
  | nil => intro _; rfl
  | cons q rest ih =>
    intro h
    rw [List.foldl_cons, replaceAll_no_occ _ _ _ (h q (by simp))]
    exact ih fun p hp => h p (by simp [hp])

/-- C10: a non-empty template containing none of the twelve placeholder tokens
and none of the recognized section headings passes through `ApplyTemplate`
unchanged, so the generated summary is dropped from the body. -/
theorem c10_inert_template_unchanged :
    ∀ template title summary,
      (template == "") = false →
      placeholderTokens.all (fun tok => !containsSub tok template) = true →
      sectionHeadingStrings.all (fun hd => !containsSub hd template) = true →
      ApplyTemplate template title summary = template := by
  intro tpl title summary hne htoks hheads
  have hnone : ∀ t : String, (!containsSub t tpl) = true →
      indexOfFrom t.toList tpl.toList = none := by
    intro t hc
    cases hio : indexOfFrom t.toList tpl.toList with
    | none => rfl
    | some v =>
      exfalso
      unfold containsSub at hc
      rw [hio] at hc
      simp at hc
  have hne' : tpl ≠ "" := by
    intro hc
    subst hc
    exact absurd hne (by decide)
  have htok : ∀ p ∈ placeholderSubs title summary,
      indexOfFrom p.1.toList tpl.toList = none := by
    intro p hp
    have hm : p.1 ∈ (placeholderSubs title summary).map Prod.fst :=
      List.mem_map_of_mem Prod.fst hp
    have hfst : (placeholderSubs title summary).map Prod.fst = placeholderTokens := rfl
    rw [hfst] at hm
    exact hnone p.1 (List.all_eq_true.mp htoks p.1 hm)
  have hrep : replacePlaceholders title summary tpl.toList = tpl.toList := by
    unfold replacePlaceholders
    exact foldl_replaceAll_no_occ _ _ htok
  have hpat : ∀ p ∈ sectionPatterns, indexOfFrom p tpl.toList = none := by
    intro p hp
    unfold sectionPatterns at hp
    obtain ⟨hd, hhd, rfl⟩ := List.mem_map.mp hp
    exact hnone hd (List.all_eq_true.mp hheads hd hhd)
  unfold ApplyTemplate
  rw [if_neg hne', hrep]
  unfold fillSection
  rw [findPattern_none hpat]
  exact mk_toList tpl

/-- Witness for C10: a concrete inert template is returned unchanged. -/
theorem c10_inert_template_witness :
    ((("Just plain release notes text." : String) == "") = false
      ∧ placeholderTokens.all
          (fun tok => !containsSub tok "Just plain release notes text.") = true
      ∧ sectionHeadingStrings.all
          (fun hd => !containsSub hd "Just plain release notes text.") = true)
    ∧ ApplyTemplate "Just plain release notes text." "T" "S" =
        "Just plain release notes text." :=
  ⟨⟨by decide, by decide, by decide⟩,
    c10_inert_template_unchanged "Just plain release notes text." "T" "S"
      (by decide) (by decide) (by decide)⟩

end Cpr
